import Mathlib

/-!
Verification of the Snapshot Sync Engine of this repository
(`backend_wordpress/wordpress_sync_v2.py`, class `WordPressSyncV2`).

The engine is embedded shallowly:

* The local filesystem is a finite map from structured paths to file data
  (`FS`).  All paths the engine ever touches have one of seven shapes
  (manifest, manifest temp file, per-page `index.html` / `clone.html` /
  `metadata.json`, timestamped archive files `clones/page_<id>/clone_<ts>.html`,
  and restore backups `pages/page_<id>/index_backup_<ts>.html`), so the path
  type `P` enumerates those shapes.
* File contents are `FData`: either raw text, or a parsed JSON document
  (`json.dump`/`json.load` round-trip faithfully on well-formed data, so the
  manifest and metadata files are stored in parsed form; `jBad` stands for a
  file whose bytes fail `json.loads`).
* Timestamps come from `datetime.now()`; they are passed in as explicit
  parameters (one per `_get_timestamp()` call site).
* The WordPress REST API is an external collaborator; its responses are
  passed in as parameters.  A response is either a string starting with
  `"Error"` (the source's error convention), a well-formed page JSON
  document (represented by its extracted fields), or a non-error string on
  which `json.loads` fails.
* `BeautifulSoup` re-serialization (`str(BeautifulSoup(s, 'html.parser'))`)
  and the body/style extraction in `push_page_v2` are external library
  calls; they are abstracted as function parameters (`bs4`, `extract`).
  `BeautifulSoup` never raises on a string input, so these are total.
-/

set_option autoImplicit false
set_option maxRecDepth 100000

namespace SyncV2

/-- The shapes of every filesystem path the sync engine reads or writes,
relative to the clone root directory.

* `manifest`      = `manifest.json`
* `manifestTmp`   = `manifest.tmp` (the atomic-write temporary)
* `index id`      = `pages/page_<id>/index.html` (working copy)
* `clone id`      = `pages/page_<id>/clone.html` (current snapshot)
* `meta id`       = `pages/page_<id>/metadata.json`
* `archived id ts`= `clones/page_<id>/clone_<ts>.html` (snapshot history)
* `backup id ts`  = `pages/page_<id>/index_backup_<ts>.html` (restore backup)
-/
inductive P where
  | manifest
  | manifestTmp
  | index (id : String)
  | clone (id : String)
  | meta (id : String)
  | archived (id ts : String)
  | backup (id ts : String)
deriving DecidableEq, Repr

/-- `metadata.json` content, as written by `clone_from_wordpress` and read by
`sync_status_v2`.  `local_only` is `none` when the key is absent from the JSON
document (the clone path never writes it; `metadata.get("local_only", False)`
then yields `False`). -/
structure Meta where
  id : Nat
  title : String
  slug : String
  status : String
  date : String
  modified : String
  cloned_at : String
  local_only : Option Bool
deriving DecidableEq, Repr

/-- File contents.  `text` is a raw document; `jManifest` is a parsed
`manifest.json` (the `pages` map, id to title, in insertion order; the path
fields of each entry are determined by the id and never read except `title`,
and the top-level scalar fields are never read back); `jMeta` is a parsed
`metadata.json`; `jBad` is a file whose bytes are not valid JSON. -/
inductive FData where
  | text (s : String)
  | jManifest (pages : List (String × String))
  | jMeta (m : Meta)
  | jBad
deriving DecidableEq, Repr

/-- The filesystem: an association list from paths to contents (first match
wins; `fsSet` keeps at most one entry per path). -/
def FS := List (P × FData)

instance : DecidableEq FS := inferInstanceAs (DecidableEq (List (P × FData)))

def fsGet : FS → P → Option FData
  | [], _ => none
  | e :: rest, p => if e.1 = p then some e.2 else fsGet rest p

def fsSet (fs : FS) (p : P) (d : FData) : FS :=
  (p, d) :: fs.filter (fun e => decide (e.1 ≠ p))

def fsDel (fs : FS) (p : P) : FS :=
  fs.filter (fun e => decide (e.1 ≠ p))

theorem fsGet_filter_ne (fs : FS) (p q : P) (h : q ≠ p) :
    fsGet (fs.filter (fun e => decide (e.1 ≠ p))) q = fsGet fs q := by
  induction fs with
  | nil => rfl
  | cons e rest ih =>
    by_cases he : e.1 = p
    · rw [List.filter_cons_of_neg (by simp [he])]
      have hne : e.1 ≠ q := by rw [he]; exact fun hq => h hq.symm
      rw [show fsGet (e :: rest) q = fsGet rest q from by simp [fsGet, hne]]
      exact ih
    · rw [List.filter_cons_of_pos (by simp [he])]
      simp only [fsGet]
      rw [ih]

theorem fsGet_fsSet_self (fs : FS) (p : P) (d : FData) :
    fsGet (fsSet fs p d) p = some d := by
  simp [fsSet, fsGet]

theorem fsGet_fsSet_of_ne (fs : FS) (p q : P) (d : FData) (h : q ≠ p) :
    fsGet (fsSet fs p d) q = fsGet fs q := by
  simp only [fsSet, fsGet]
  rw [if_neg (fun hq => h hq.symm)]
  exact fsGet_filter_ne fs p q h

/-! ### String helpers translated from the Python string/regex operations -/

/-- Python `\s` (ASCII range, as used on the engine's ASCII timestamps and
HTML whitespace). -/
def isWs (c : Char) : Bool :=
  c = ' ' || c = '\t' || c = '\n' || c = '\r' || c = '\x0b' || c = '\x0c'

/-- `re.sub(r'\s+', ' ', s)`: collapse each maximal whitespace run to one
space.  The boolean records whether the previous character was whitespace. -/
def cwAux : Bool → List Char → List Char
  | _, [] => []
  | prevWs, c :: cs =>
    if isWs c then
      if prevWs then cwAux true cs else ' ' :: cwAux true cs
    else c :: cwAux false cs

def collapseWs (s : String) : String := String.mk (cwAux false s.data)

/-- `re.sub(r'>\s+<', '><', s)`: non-overlapping left-to-right replacement.
Fueled recursion; fuel `cs.length` always suffices because every step
consumes at least one character. -/
def gapAux : Nat → List Char → List Char
  | 0, cs => cs
  | _ + 1, [] => []
  | fuel + 1, c :: cs =>
    if c = '>' then
      let w := cs.takeWhile (fun x => isWs x)
      let r := cs.dropWhile (fun x => isWs x)
      match w, r with
      | _ :: _, '<' :: r2 => '>' :: '<' :: gapAux fuel r2
      | _, _ => '>' :: gapAux fuel cs
    else c :: gapAux fuel cs

def gapCollapse (s : String) : String := String.mk (gapAux s.data.length s.data)

/-- Python `str.strip()`. -/
def pyStrip (s : String) : String :=
  String.mk (((s.data.dropWhile (fun c => isWs c)).reverse.dropWhile (fun c => isWs c)).reverse)

/-- `_normalize_html`, parameterized by the external `BeautifulSoup`
re-serialization `bs4` (`str(BeautifulSoup(s, 'html.parser'))`, which never
raises, so the function's `except` fallback is unreachable). -/
def normalize_html (bs4 : String → String) (s : String) : String :=
  pyStrip (gapCollapse (collapseWs (bs4 s)))

/-- Strip a literal character sequence from the front, returning the rest. -/
def dropLit : List Char → List Char → Option (List Char)
  | [], cs => some cs
  | _ :: _, [] => none
  | l :: ls, c :: cs => if c = l then dropLit ls cs else none

/-- Take exactly `n` decimal digits from the front. -/
def takeDigits : Nat → List Char → Option (List Char × List Char)
  | 0, cs => some ([], cs)
  | _ + 1, [] => none
  | n + 1, c :: cs =>
    if c.isDigit then (takeDigits n cs).map (fun r => (c :: r.1, r.2)) else none

/-- The literal part of the timestamp-marker regexes. -/
def tsMarker : List Char := "<!-- Clone timestamp: ".data

/-- Try to match `\d{8}_\d{6}` right at the start of `cs`, returning the
matched timestamp and the remainder after it. -/
def matchTs (cs : List Char) : Option (String × List Char) :=
  match takeDigits 8 cs with
  | none => none
  | some (d1, r1) =>
    match r1 with
    | '_' :: r2 =>
      match takeDigits 6 r2 with
      | none => none
      | some (d2, r3) => some (String.mk (d1 ++ '_' :: d2), r3)
    | _ => none

/-- `re.search(r'<!-- Clone timestamp: (\d{8}_\d{6})', content)`: the
leftmost position where the whole pattern matches, returning group 1. -/
def findCloneTs : List Char → Option String
  | [] => none
  | c :: cs =>
    match (dropLit tsMarker (c :: cs)).bind (fun r => (matchTs r).map (·.1)) with
    | some ts => some ts
    | none => findCloneTs cs

/-- The timestamp `_update_clone_with_timestamp` extracts from an existing
snapshot before archiving it: the regex group when it matches, otherwise
`"unknown"` (this also covers the guarding `"<!-- Clone timestamp:" in
old_content` substring test: when the marker is absent the regex cannot
match either, and the result is `"unknown"` in both codepaths). -/
def extractTimestamp (content : String) : String :=
  (findCloneTs content.data).getD "unknown"

/-- `re.search(r'<!-- Clone timestamp: \d{8}_\d{6} \(([^)]+)\)', content)`:
leftmost full match, returning the operation label in group 1. -/
def findCloneOp : List Char → Option String
  | [] => none
  | c :: cs =>
    match (dropLit tsMarker (c :: cs)).bind (fun r =>
      (matchTs r).bind (fun tr =>
        match tr.2 with
        | ' ' :: '(' :: r4 =>
          match r4.takeWhile (fun x => x ≠ ')') with
          | [] => none
          | grp =>
            match r4.dropWhile (fun x => x ≠ ')') with
            | ')' :: _ => some (String.mk grp)
            | _ => none
        | _ => none)) with
    | some op => some op
    | none => findCloneOp cs

/-! ### The three HTML templates the engine writes, transcribed literally -/

/-- The snapshot template of `_update_clone_with_timestamp` (carries the
`Clone timestamp` comment and wraps the content in a `page-content` div). -/
def cloneTemplate (title ts op content : String) : String :=
  "<!DOCTYPE html>\n<html>\n<head>\n    <title>" ++ title ++
  "</title>\n    <meta charset=\"utf-8\">\n    <meta name=\"viewport\" content=\"width=device-width, initial-scale=1\">\n    <!-- Clone timestamp: " ++
  ts ++ " (" ++ op ++
  ") -->\n</head>\n<body>\n    <div class=\"page-content\">\n        " ++
  content ++ "\n    </div>\n</body>\n</html>"

/-- The working-copy template `new_wp_content` of `clone_from_wordpress`
(no timestamp comment). -/
def pageTemplate (title content : String) : String :=
  "<!DOCTYPE html>\n<html>\n<head>\n    <title>" ++ title ++
  "</title>\n    <meta charset=\"utf-8\">\n    <meta name=\"viewport\" content=\"width=device-width, initial-scale=1\">\n</head>\n<body>\n    <div class=\"page-content\">\n        " ++
  content ++ "\n    </div>\n</body>\n</html>"

/-- The `wordpress_html` template `push_page_v2` writes to `index.html`
after a verified push (a `Synced with WordPress` comment, and the content
directly inside `<body>` with no `page-content` div). -/
def syncedTemplate (title ts content : String) : String :=
  "<!DOCTYPE html>\n<html>\n<head>\n    <title>" ++ title ++
  "</title>\n    <meta charset=\"utf-8\">\n    <meta name=\"viewport\" content=\"width=device-width, initial-scale=1\">\n    <!-- Synced with WordPress: " ++
  ts ++ " -->\n</head>\n<body>\n    " ++ content ++ "\n</body>\n</html>"

/-! ### Data exchanged with the WordPress REST API (external collaborator) -/

/-- One element of the parsed `/wp/v2/pages` listing, with the fields
`clone_from_wordpress` reads (`title.rendered`, `content.rendered`, and the
metadata fields fetched with `.get(..., '')` defaults). -/
structure WPPage where
  id : Nat
  title : String
  content : String
  slug : String
  status : String
  date : String
  modified : String
deriving DecidableEq, Repr

/-- A response to the page-list request: the source checks
`response.startswith("Error")` first and then `json.loads` it.
`errorStr msg` is the string `"Error" ++ msg`; `badJson` is a non-error
response on which `json.loads` raises. -/
inductive WPListResp where
  | errorStr (msg : String)
  | pagesJson (pages : List WPPage)
  | badJson
deriving DecidableEq, Repr

/-- A response to a single-page request (the PATCH in `push_page_v2` and its
verification GET).  `pageJson title content` carries the values the source
extracts with `.get('title',{}).get('rendered','Unknown')` and
`.get('content',{}).get('rendered','')` (defaults already applied). -/
inductive WPPageResp where
  | errorStr (msg : String)
  | pageJson (title content : String)
  | badJson
deriving DecidableEq, Repr

/-! ### `_update_clone_with_timestamp` -/

/-- `_update_clone_with_timestamp(page_id, wp_content, title, operation)`,
with the `datetime.now()` value passed as `ts`.  Returns `none` when the
existing `clone.html` is unreadable as a document (`read_text` raising,
caught by the caller's exception handler); otherwise the updated filesystem
and the returned timestamp.  Steps, in source order: archive the current
snapshot (if any) under the timestamp embedded in it, write the new
timestamped history file, then overwrite the current `clone.html`. -/
def update_clone_with_timestamp (fs : FS) (pageId content title op ts : String) :
    Option (FS × String) :=
  let newClone : FData := .text (cloneTemplate title ts op content)
  match fsGet fs (P.clone pageId) with
  | some (.text old) =>
    let fs1 := fsSet fs (P.archived pageId (extractTimestamp old)) (.text old)
    let fs2 := fsSet fs1 (P.archived pageId ts) newClone
    some (fsSet fs2 (P.clone pageId) newClone, ts)
  | some _ => none
  | none =>
    let fs2 := fsSet fs (P.archived pageId ts) newClone
    some (fsSet fs2 (P.clone pageId) newClone, ts)

/-! ### `get_clone_history` -/

/-- The files `page_clones_dir.glob("clone_*.html")` yields for a page:
the archive entries of that page, with the `*` part (the timestamp slot of
the filename) and the file data, in directory-iteration order (modelled as
the `FS` list order). -/
def archKey (p : P) (pageId : String) : Option String :=
  match p with
  | P.archived j t => if j = pageId then some t else none
  | _ => none

def archEntries : FS → String → List (String × FData)
  | [], _ => []
  | e :: rest, pageId =>
    match archKey e.1 pageId with
    | some t => (t, e.2) :: archEntries rest pageId
    | none => archEntries rest pageId

/-- One entry of the history listing. -/
structure HEntry where
  timestamp : String
  date : String
  time : String
  operation : String
  size : Nat
deriving DecidableEq, Repr

/-- `timestamp_str[:8]` formatted as `YYYY-MM-DD`. -/
def fmtDate (t : String) : String :=
  String.mk (t.data.take 4) ++ "-" ++ String.mk ((t.data.drop 4).take 2) ++ "-" ++
    String.mk ((t.data.drop 6).take 2)

/-- `timestamp_str[9:]` formatted as `HH:MM:SS`. -/
def fmtTime (t : String) : String :=
  let tp := t.data.drop 9
  String.mk (tp.take 2) ++ ":" ++ String.mk ((tp.drop 2).take 2) ++ ":" ++
    String.mk ((tp.drop 4).take 2)

/-- Stable insertion keeping the list sorted by timestamp descending
(Python's stable `list.sort(key=..., reverse=True)`). -/
def strLtChars : List Char → List Char → Bool
  | [], [] => false
  | [], _ :: _ => true
  | _ :: _, [] => false
  | a :: as, b :: bs => if a < b then true else if b < a then false else strLtChars as bs

def insertDesc (e : HEntry) : List HEntry → List HEntry
  | [] => [e]
  | x :: xs =>
    if strLtChars x.timestamp.data e.timestamp.data then e :: x :: xs
    else x :: insertDesc e xs

def sortDescByTs (l : List HEntry) : List HEntry :=
  l.foldl (fun acc e => insertDesc e acc) []

/-- `get_clone_history(page_id)`: scan the page's archive directory, keep
files whose timestamp slot has length 15, read each to extract the operation
label (default `"clone"`; unreadable files are warned about and skipped),
and sort newest-first.  `st_size` is the byte size of the content. -/
def get_clone_history (fs : FS) (pageId : String) : List HEntry :=
  let raw := (archEntries fs pageId).filterMap (fun e =>
    if e.1.length = 15 then
      match e.2 with
      | .text content =>
        some { timestamp := e.1, date := fmtDate e.1, time := fmtTime e.1,
               operation := (findCloneOp content.data).getD "clone",
               size := content.utf8ByteSize }
      | _ => none
    else none)
  sortDescByTs raw

/-! ### `restore_from_clone` -/

inductive RestoreResult where
  | notFound
  | restored
deriving DecidableEq, Repr

/-- `restore_from_clone(page_id, timestamp)`, with the `datetime.now()` of
the backup passed as `backupTs`.  When the requested archive exists: back up
the current `index.html` (if present) to `index_backup_<backupTs>.html` in
the page directory, then copy the archived snapshot over `index.html` and
over the current `clone.html`.  `shutil.copy2` copies the file bytes, so the
`FData` value is copied as-is. -/
def restore_from_clone (fs : FS) (pageId ts backupTs : String) : FS × RestoreResult :=
  match fsGet fs (P.archived pageId ts) with
  | none => (fs, .notFound)
  | some src =>
    let fs1 :=
      match fsGet fs (P.index pageId) with
      | some cur => fsSet fs (P.backup pageId backupTs) cur
      | none => fs
    let fs2 := fsSet fs1 (P.index pageId) src
    (fsSet fs2 (P.clone pageId) src, .restored)

/-! ### `detect_changes_v2` -/

/-- One record of the `detect_changes_v2` result list.  The source record
also carries the constant field `type: "content"` and the two file paths,
which are determined by `page_id`. -/
structure ChangeRec where
  page_id : String
  title : String
deriving DecidableEq, Repr

/-- The raw-difference test `detect_changes_v2` applies to one manifest
entry (`if clone_file.exists() and index_file.exists()` followed by reading
both and `clone_content != index_content`): both files present and readable,
contents unequal byte-for-byte; a read failure is caught by the per-page
`except` and counts as no report. -/
def pageDiffB (fs : FS) (pid : String) : Bool :=
  match fsGet fs (P.clone pid), fsGet fs (P.index pid) with
  | some (.text c), some (.text i) => decide (c ≠ i)
  | _, _ => false

/-- The per-entry loop of `detect_changes_v2`, over the manifest's `pages`
map in insertion order.  A page is reported exactly when `pageDiffB` holds
(no normalization is applied). -/
def detectLoop (fs : FS) : List (String × String) → List ChangeRec
  | [] => []
  | (pid, title) :: rest =>
    if pageDiffB fs pid then ⟨pid, title⟩ :: detectLoop fs rest else detectLoop fs rest

/-- `detect_changes_v2()`: empty when there is no manifest; raises (`none`)
when `manifest.json` exists but `json.load` fails on it. -/
def detect_changes_v2 (fs : FS) : Option (List ChangeRec) :=
  match fsGet fs P.manifest with
  | none => some []
  | some (.jManifest pages) => some (detectLoop fs pages)
  | some _ => none

/-! ### `clone_from_wordpress` -/

/-- One element of the `conflicts_detected` list (the source record also
carries the two file paths, determined by `page_id`). -/
structure ConflictRec where
  page_id : Nat
  title : String
  conflict_type : String
deriving DecidableEq, Repr

/-- The outcome `clone_from_wordpress` reports (the source formats these as
result strings; `errorRes` is the outer `except` path, `fetchError` the
`pages_response.startswith("Error")` path, `noPages` the empty-list path). -/
inductive CloneResult where
  | errorRes
  | fetchError (msg : String)
  | noPages
  | done (conflicts : List ConflictRec) (success : Nat)
deriving DecidableEq, Repr

/-- `clone_from_wordpress`'s decision for the working copy of one page
(source lines: "Handle index.html based on local changes and WordPress
changes"): create it when absent, overwrite on request or on a pure inbound
update, preserve it and record a conflict (`both_changed` when the snapshot
comparison said WordPress moved too, else `local_only`) when the page had
pre-existing local changes, and otherwise leave it alone. -/
def workingCopyStep (fs1 : FS) (pid newWp : String)
    (overwrite hadLocal wordpressChanged : Bool) (pg : WPPage) :
    FS × Option ConflictRec :=
  match fsGet fs1 (P.index pid) with
  | none => (fsSet fs1 (P.index pid) (.text newWp), none)
  | some _ =>
    if overwrite then (fsSet fs1 (P.index pid) (.text newWp), none)
    else if hadLocal then
      (fs1, some { page_id := pg.id, title := pg.title,
                   conflict_type :=
                     if wordpressChanged then "both_changed" else "local_only" })
    else if wordpressChanged then (fsSet fs1 (P.index pid) (.text newWp), none)
    else (fs1, none)

/-- The body of `clone_from_wordpress`'s per-page loop for one page, with
the `datetime.now().isoformat()` of the metadata passed as `iso` and the
`_get_timestamp()` of this iteration as `ts`.  Returns `none` when the page
is skipped by the per-page exception handler (reading an unreadable existing
`clone.html`, the only failing step in this model); otherwise the updated
filesystem and the conflict recorded for this page, if any.  Source order:
read the existing snapshot to decide `wordpress_changed` (content equality
against the fresh rendering), always refresh the snapshot with a timestamp,
then decide the working-copy fate, then write `metadata.json`. -/
def clonePage (fs : FS) (changes : List ChangeRec) (overwrite : Bool)
    (iso ts : String) (pg : WPPage) : Option (FS × Option ConflictRec) :=
  let pid := toString pg.id
  let newWp := pageTemplate pg.title pg.content
  let wpChanged? : Option Bool :=
    match fsGet fs (P.clone pid) with
    | some (.text old) => some (old ≠ newWp)
    | some _ => none
    | none => some false
  match wpChanged? with
  | none => none
  | some wordpressChanged =>
    match update_clone_with_timestamp fs pid pg.content pg.title "clone" ts with
    | none => none
    | some (fs1, _) =>
      let hadLocal := changes.any (fun c => c.page_id = pid)
      let step := workingCopyStep fs1 pid newWp overwrite hadLocal wordpressChanged pg
      let meta : Meta :=
        { id := pg.id, title := pg.title, slug := pg.slug, status := pg.status,
          date := pg.date, modified := pg.modified, cloned_at := iso, local_only := none }
      some (fsSet step.1 (P.meta pid) (.jMeta meta), step.2)

/-- The aggregate state of the clone loop: filesystem, `conflicts_detected`,
the `cloned_pages` manifest map, and `success_count`, each in source
(append) order. -/
structure CloneLoopOut where
  fs : FS
  conflicts : List ConflictRec
  clonedPages : List (String × String)
  success : Nat

/-- The whole per-page loop; `tsOf n` is the `_get_timestamp()` value of the
`n`-th iteration. -/
def clonePages (iso : String) (overwrite : Bool) (changes : List ChangeRec)
    (tsOf : Nat → String) : FS → List WPPage → Nat → CloneLoopOut
  | fs, [], _ => ⟨fs, [], [], 0⟩
  | fs, pg :: rest, idx =>
    match clonePage fs changes overwrite iso (tsOf idx) pg with
    | none => clonePages iso overwrite changes tsOf fs rest (idx + 1)
    | some (fs1, cOpt) =>
      let r := clonePages iso overwrite changes tsOf fs1 rest (idx + 1)
      { fs := r.fs
        conflicts := match cOpt with | some c => c :: r.conflicts | none => r.conflicts
        clonedPages := (toString pg.id, pg.title) :: r.clonedPages
        success := r.success + 1 }

/-- The state right after `json.dump(manifest, f)` into the `.tmp` file and
before `temp_manifest.replace(manifest_file)` — the window the atomic-write
pattern protects. -/
def cloneUpToTempWrite (iso : String) (overwrite : Bool) (changes : List ChangeRec)
    (tsOf : Nat → String) (fs : FS) (pages : List WPPage) : FS :=
  let r := clonePages iso overwrite changes tsOf fs pages 0
  fsSet r.fs P.manifestTmp (.jManifest r.clonedPages)

/-- `temp_manifest.replace(manifest_file)`: an atomic rename — the manifest
path now holds exactly the temp file's content and the temp path is gone. -/
def promoteManifest (fs : FS) : FS :=
  match fsGet fs P.manifestTmp with
  | some d => fsDel (fsSet fs P.manifest d) P.manifestTmp
  | none => fs

/-- `clone_from_wordpress(overwrite_local)`.  First (unless overwriting)
compute the pre-existing local changes with `detect_changes_v2`; a raised
manifest-parse error there is caught by the outer handler.  Then check the
page-list response for the `"Error"` prefix, parse it, process every page,
and finally persist the manifest atomically (temp write, then rename). -/
def clone_from_wordpress (fs : FS) (listResp : WPListResp) (overwrite : Bool)
    (tsOf : Nat → String) (iso : String) : FS × CloneResult :=
  match (if overwrite then some [] else detect_changes_v2 fs) with
  | none => (fs, .errorRes)
  | some changes =>
    match listResp with
    | .errorStr msg => (fs, .fetchError msg)
    | .badJson => (fs, .errorRes)
    | .pagesJson [] => (fs, .noPages)
    | .pagesJson (pg :: rest) =>
      let r := clonePages iso overwrite changes tsOf fs (pg :: rest) 0
      (promoteManifest (cloneUpToTempWrite iso overwrite changes tsOf fs (pg :: rest)),
       .done r.conflicts r.success)

/-! ### `push_page_v2` -/

/-- `push_page_v2(page_id, dry_run)`.  `extract` abstracts the
`BeautifulSoup` body/style extraction that builds `content_to_push` from the
working copy (both of its branches are total and produce a string; the
PATCH payload is never compared against anything locally).  `patchResp` and
`getResp` are the responses of the PATCH and of the verification GET, and
`ts` the `_get_timestamp()` of the post-push snapshot refresh.  Failure
protocol of the source: missing working copy, a PATCH response starting
with `"Error"`, or an exception (unparsable verification JSON) yield
`False` with no local write; a verification GET starting with `"Error"`
yields `True` with no local write ("Push worked, but couldn't verify");
a verified push refreshes the snapshot (tagged `"push"`) and overwrites the
working copy with the `wordpress_html` rendering of the verified content. -/
def push_page_v2 (fs : FS) (pageId : String) (dryRun : Bool)
    (extract : String → String) (patchResp getResp : WPPageResp) (ts : String) :
    FS × Bool :=
  match fsGet fs (P.index pageId) with
  | none => (fs, false)
  | some (.text indexHtml) =>
    let _contentToPush := extract indexHtml
    if dryRun then (fs, true)
    else
      match patchResp with
      | .errorStr _ => (fs, false)
      | _ =>
        match getResp with
        | .errorStr _ => (fs, true)
        | .badJson => (fs, false)
        | .pageJson title content =>
          match update_clone_with_timestamp fs pageId content title "push" ts with
          | none => (fs, false)
          | some (fs1, pushTs) =>
            (fsSet fs1 (P.index pageId) (.text (syncedTemplate title pushTs content)), true)
  | some _ => (fs, false)

/-! ### `sync_status_v2` -/

/-- One record of the `changes` / `local_only` lists of `sync_status_v2`
(the source record also carries a human-readable `reason`, determined by
`status`). -/
structure SChange where
  page_id : String
  title : String
  status : String
deriving DecidableEq, Repr

/-- The per-entry loop of `sync_status_v2`, accumulating `(changes,
local_only)`.  `none` models an exception escaping to the outer handler
(an unreadable `index.html`/`clone.html`); the metadata read has its own
`except` that falls back to not-local-only. -/
def statusLoop (bs4 : String → String) (fs : FS) :
    List (String × String) → Option (List SChange × List SChange)
  | [] => some ([], [])
  | (pid, title) :: rest =>
    let isLocalOnly :=
      match fsGet fs (P.meta pid) with
      | some (.jMeta m) => m.local_only.getD false || decide (m.status = "local_only")
      | _ => false
    if isLocalOnly then
      (statusLoop bs4 fs rest).map (fun r => (r.1, ⟨pid, title, "local_only"⟩ :: r.2))
    else
      match fsGet fs (P.index pid) with
      | none => statusLoop bs4 fs rest
      | some idxD =>
        match fsGet fs (P.clone pid) with
        | none => (statusLoop bs4 fs rest).map (fun r => (⟨pid, title, "no_clone"⟩ :: r.1, r.2))
        | some clD =>
          match idxD, clD with
          | .text i, .text c =>
            if normalize_html bs4 i ≠ normalize_html bs4 c then
              (statusLoop bs4 fs rest).map (fun r => (⟨pid, title, "modified"⟩ :: r.1, r.2))
            else statusLoop bs4 fs rest
          | _, _ => none

/-- The result of `sync_status_v2` (the source also returns a `summary` of
the three list lengths; the `no_manifest` and `error` returns carry no
`local_only` key, modelled as the empty list). -/
structure StatusOut where
  status : String
  changes : List SChange
  localOnly : List SChange
deriving DecidableEq, Repr

/-- `sync_status_v2()`: `no_manifest` without a manifest file; otherwise
parse it (failure, like any exception during the scan, is caught and
reported as status `"error"`), run the scan, and classify:
`local_only_pages` if there are local-only pages and no changes,
`needs_sync` if there are changes or local-only pages, else `synced`. -/
def sync_status_v2 (bs4 : String → String) (fs : FS) : StatusOut :=
  match fsGet fs P.manifest with
  | none => { status := "no_manifest", changes := [], localOnly := [] }
  | some (.jManifest pages) =>
    match statusLoop bs4 fs pages with
    | none => { status := "error", changes := [], localOnly := [] }
    | some (changes, localOnly) =>
      let st :=
        if !localOnly.isEmpty && changes.isEmpty then "local_only_pages"
        else if !changes.isEmpty || !localOnly.isEmpty then "needs_sync"
        else "synced"
      { status := st, changes := changes, localOnly := localOnly }
  | some _ => { status := "error", changes := [], localOnly := [] }

/-! ### Shared helper lemmas -/

theorem archEntries_filter_eq (fs : FS) (p : P) (i : String) (h : archKey p i = none) :
    archEntries (fs.filter (fun e => decide (e.1 ≠ p))) i = archEntries fs i := by
  induction fs with
  | nil => rfl
  | cons e rest ih =>
    by_cases he : e.1 = p
    · rw [List.filter_cons_of_neg (by simp [he])]
      rw [show archEntries (e :: rest) i = archEntries rest i from by
        simp only [archEntries, he, h]]
      exact ih
    · rw [List.filter_cons_of_pos (by simp [he])]
      simp only [archEntries]
      rw [ih]

theorem archEntries_fsSet_eq (fs : FS) (p : P) (d : FData) (i : String)
    (h : archKey p i = none) :
    archEntries (fsSet fs p d) i = archEntries fs i := by
  simp only [fsSet, archEntries, h]
  exact archEntries_filter_eq fs p i h

theorem get_clone_history_congr (fs fs2 : FS) (i : String)
    (h : archEntries fs2 i = archEntries fs i) :
    get_clone_history fs2 i = get_clone_history fs i := by
  simp only [get_clone_history, h]

/-- `update_clone_with_timestamp` writes only the page's `clone.html` and
archive files: the manifest path is untouched. -/
theorem update_clone_manifest_frame (fs fs1 : FS) (pid c t op ts rts : String)
    (h : update_clone_with_timestamp fs pid c t op ts = some (fs1, rts)) :
    fsGet fs1 P.manifest = fsGet fs P.manifest := by
  unfold update_clone_with_timestamp at h
  split at h
  · obtain ⟨rfl, rfl⟩ := Prod.mk.injEq .. ▸ Option.some.injEq .. ▸ h
    rw [fsGet_fsSet_of_ne _ _ _ _ (by intro hc; cases hc),
        fsGet_fsSet_of_ne _ _ _ _ (by intro hc; cases hc),
        fsGet_fsSet_of_ne _ _ _ _ (by intro hc; cases hc)]
  · exact absurd h (by simp)
  · obtain ⟨rfl, rfl⟩ := Prod.mk.injEq .. ▸ Option.some.injEq .. ▸ h
    rw [fsGet_fsSet_of_ne _ _ _ _ (by intro hc; cases hc),
        fsGet_fsSet_of_ne _ _ _ _ (by intro hc; cases hc)]

/-- The working-copy decision never touches the manifest path. -/
theorem workingCopyStep_manifest_frame (fs1 : FS) (pid newWp : String)
    (overwrite hadLocal wordpressChanged : Bool) (pg : WPPage) :
    fsGet (workingCopyStep fs1 pid newWp overwrite hadLocal wordpressChanged pg).1
      P.manifest = fsGet fs1 P.manifest := by
  unfold workingCopyStep
  split
  · exact fsGet_fsSet_of_ne _ _ _ _ (by intro hc; cases hc)
  · split
    · exact fsGet_fsSet_of_ne _ _ _ _ (by intro hc; cases hc)
    · split
      · rfl
      · split
        · exact fsGet_fsSet_of_ne _ _ _ _ (by intro hc; cases hc)
        · rfl

/-- The per-page step of the clone loop never touches the manifest path. -/
theorem clonePage_manifest_frame (fs fs1 : FS) (changes : List ChangeRec)
    (overwrite : Bool) (iso ts : String) (pg : WPPage) (cOpt : Option ConflictRec)
    (h : clonePage fs changes overwrite iso ts pg = some (fs1, cOpt)) :
    fsGet fs1 P.manifest = fsGet fs P.manifest := by
  simp only [clonePage] at h
  split at h
  · exact absurd h (by simp)
  · split at h
    · exact absurd h (by simp)
    · rename_i fs2 rts heq
      have hfs2 : fsGet fs2 P.manifest = fsGet fs P.manifest :=
        update_clone_manifest_frame fs fs2 _ _ _ _ _ _ heq
      obtain ⟨rfl, rfl⟩ := Prod.mk.injEq .. ▸ Option.some.injEq .. ▸ h
      rw [fsGet_fsSet_of_ne _ _ _ _ (by intro hc; cases hc)]
      rw [workingCopyStep_manifest_frame]
      exact hfs2

/-- The whole clone loop never touches the manifest path. -/
theorem clonePages_manifest_frame (iso : String) (overwrite : Bool)
    (changes : List ChangeRec) (tsOf : Nat → String) (pages : List WPPage) :
    ∀ (fs : FS) (idx : Nat),
      fsGet (clonePages iso overwrite changes tsOf fs pages idx).fs P.manifest =
        fsGet fs P.manifest := by
  induction pages with
  | nil => intro fs idx; rfl
  | cons pg rest ih =>
    intro fs idx
    simp only [clonePages]
    rcases hp : clonePage fs changes overwrite iso (tsOf idx) pg with _ | r
    · exact ih fs (idx + 1)
    · obtain ⟨fs1, cOpt⟩ := r
      have h1 := clonePage_manifest_frame fs fs1 changes overwrite iso (tsOf idx) pg cOpt hp
      simp only []
      rw [ih fs1 (idx + 1), h1]

/-! ### Concrete states used by the counterexamples and witnesses -/

def tsA : String := "20240101_000000"
def tsB : String := "20240102_000000"

/-- Page 42 as returned by the page-list API, never cloned before. -/
def pgFirst : WPPage := ⟨42, "T", "<p>x</p>", "sl", "publish", "d", "m"⟩

/-- An item previously cloned by the V2 engine (its snapshot carries the
embedded timestamp comment) whose working copy was edited locally. -/
def fsEdited : FS :=
  [(P.manifest, .jManifest [("7", "T")]),
   (P.clone "7", .text (cloneTemplate "T" tsA "clone" "<p>a</p>")),
   (P.index "7", .text "edited")]

/-- The same item as the remote reports it, unchanged since the last clone
(`content.rendered` is exactly what was cloned). -/
def pgSame : WPPage := ⟨7, "T", "<p>a</p>", "s", "publish", "d", "m"⟩

/-- A cloned item about to be pushed. -/
def fsPush : FS :=
  [(P.manifest, .jManifest [("5", "T")]),
   (P.index "5", .text "<p>x</p>"),
   (P.clone "5", .text "old")]

/-- Two documents differing only in whitespace between tags. -/
def fsWsOnly : FS :=
  [(P.manifest, .jManifest [("3", "T")]),
   (P.clone "3", .text "<p>a</p><p>b</p>"),
   (P.index "3", .text "<p>a</p> <p>b</p>")]

/-- An item with one archived snapshot, a current snapshot whose content
appears nowhere in the archive, and an edited working copy. -/
def fsArch : FS :=
  [(P.archived "4" tsA, .text (cloneTemplate "T" tsA "clone" "Z")),
   (P.index "4", .text "W"),
   (P.clone "4", .text "X")]

/-- A manifest entry whose two files are byte-identical. -/
def fsInSync : FS :=
  [(P.manifest, .jManifest [("1", "T")]),
   (P.index "1", .text "<p>a</p>"),
   (P.clone "1", .text "<p>a</p>")]

/-! ### Claim theorems -/

/-- Claim C1: round-trip after push.  The claim states that after a
successful `push_page_v2` (PATCH and verification both succeeding),
`detect_changes_v2` reports no difference for that page.  The code violates
this: the verified push writes `clone.html` with the `cloneTemplate`
rendering (timestamp comment, `page-content` div) but `index.html` with the
`syncedTemplate` rendering (different comment, no div), so the two files
always differ and `detect_changes_v2` reports the page as modified.  Here,
for page `"5"` of `fsPush` with verified content `<p>hi</p>`, the push
returns `true` yet detection reports the page. -/
theorem push_roundtrip_detect_nonempty :
    (push_page_v2 fsPush "5" false (fun s => s) (.pageJson "T" "<p>hi</p>")
        (.pageJson "T" "<p>hi</p>") tsB).2 = true ∧
    detect_changes_v2 (push_page_v2 fsPush "5" false (fun s => s)
        (.pageJson "T" "<p>hi</p>") (.pageJson "T" "<p>hi</p>") tsB).1 =
      some [⟨"5", "T"⟩] := by
  decide

/-- Claim C2: conflict sub-typing on an unchanged remote.  The claim states
that a locally-edited item whose remote content is unchanged since the last
clone gets a `local_only` conflict.  The code violates this: the stored
snapshot carries the embedded timestamp comment that the fresh remote
rendering (`new_wp_content`) lacks, so `wordpress_changed` — computed as
content inequality between the two — is true even for an unchanged remote,
and the conflict is sub-typed `both_changed`.  Here item `7` of `fsEdited`
was cloned at `tsA`, edited locally, and the remote returns exactly the
previously cloned content; the working copy is preserved and exactly one
conflict is reported, but with sub-type `both_changed`. -/
theorem clone_unchanged_remote_conflict_is_both_changed :
    (clone_from_wordpress fsEdited (.pagesJson [pgSame]) false (fun _ => tsB) "iso").2 =
      .done [⟨7, "T", "both_changed"⟩] 1 ∧
    fsGet (clone_from_wordpress fsEdited (.pagesJson [pgSame]) false
        (fun _ => tsB) "iso").1 (P.index "7") = some (.text "edited") := by
  decide

/-- Claim C3: first clone is conflict-free and in sync.  The claim's first
three parts hold (working copy created, snapshot created, no conflict), but
the final part fails on the code: `index.html` is written from
`pageTemplate` (no timestamp comment) while `clone.html` is written from
`cloneTemplate` (with the comment), so `detect_changes_v2` immediately
reports the never-edited page as changed.  Here page `42` is cloned into an
empty tree. -/
theorem first_clone_detect_nonempty :
    (clone_from_wordpress ([] : FS) (.pagesJson [pgFirst]) false
        (fun _ => tsA) "iso").2 = .done [] 1 ∧
    fsGet (clone_from_wordpress ([] : FS) (.pagesJson [pgFirst]) false
        (fun _ => tsA) "iso").1 (P.index "42") =
      some (.text (pageTemplate "T" "<p>x</p>")) ∧
    fsGet (clone_from_wordpress ([] : FS) (.pagesJson [pgFirst]) false
        (fun _ => tsA) "iso").1 (P.clone "42") =
      some (.text (cloneTemplate "T" tsA "clone" "<p>x</p>")) ∧
    detect_changes_v2 (clone_from_wordpress ([] : FS) (.pagesJson [pgFirst]) false
        (fun _ => tsA) "iso").1 = some [⟨"42", "T"⟩] := by
  decide

/-- Claim C7: manifest persistence is all-or-nothing.  First part: in the
state right after the temp file is written and before the rename
(`cloneUpToTempWrite`), `manifest.json` still holds exactly its previous
content, whatever the batch did.  Second part: when fetching the remote page
list fails (a response starting with `"Error"`), the whole filesystem — in
particular `manifest.json` — is left exactly as it was. -/
theorem manifest_atomic_commit :
    (∀ (iso : String) (overwrite : Bool) (changes : List ChangeRec)
        (tsOf : Nat → String) (fs : FS) (pages : List WPPage),
      fsGet (cloneUpToTempWrite iso overwrite changes tsOf fs pages) P.manifest =
        fsGet fs P.manifest) ∧
    (∀ (fs : FS) (msg iso : String) (overwrite : Bool) (tsOf : Nat → String),
      (clone_from_wordpress fs (.errorStr msg) overwrite tsOf iso).1 = fs) := by
  constructor
  · intro iso overwrite changes tsOf fs pages
    simp only [cloneUpToTempWrite]
    rw [fsGet_fsSet_of_ne _ _ _ _ (by intro hc; cases hc)]
    exact clonePages_manifest_frame iso overwrite changes tsOf pages fs 0
  · intro fs msg iso overwrite tsOf
    unfold clone_from_wordpress
    split <;> rfl

/-- Claim C10: dry-run push is effect-free.  `push_page_v2` with
`dry_run=True` leaves the filesystem untouched, its result does not depend
on either API response (no request is issued), and it returns `true`
exactly when the working-copy file exists and is readable. -/
theorem push_dry_run_effect_free (fs : FS) (pageId : String)
    (extract : String → String) (patchResp getResp : WPPageResp) (ts : String) :
    push_page_v2 fs pageId true extract patchResp getResp ts =
      (fs, match fsGet fs (P.index pageId) with
           | some (.text _) => true
           | _ => false) := by
  rcases h : fsGet fs (P.index pageId) with _ | d
  · unfold push_page_v2; rw [h]
  · cases d with
    | text s => unfold push_page_v2; rw [h]; rfl
    | jManifest m => unfold push_page_v2; rw [h]
    | jMeta m => unfold push_page_v2; rw [h]
    | jBad => unfold push_page_v2; rw [h]

theorem detectLoop_cons (fs : FS) (a b : String) (rest : List (String × String)) :
    detectLoop fs ((a, b) :: rest) =
      if pageDiffB fs a then ⟨a, b⟩ :: detectLoop fs rest else detectLoop fs rest :=
  rfl

theorem detectLoop_mem (fs : FS) (pages : List (String × String)) (pid title : String) :
    (⟨pid, title⟩ : ChangeRec) ∈ detectLoop fs pages ↔
      ((pid, title) ∈ pages ∧ pageDiffB fs pid = true) := by
  induction pages with
  | nil => simp [detectLoop]
  | cons e rest ih =>
    obtain ⟨a, b⟩ := e
    rw [detectLoop_cons]
    by_cases hd : pageDiffB fs a
    · rw [if_pos hd]
      simp only [List.mem_cons]
      constructor
      · rintro (heq | hmem)
        · injection heq with h1 h2
          subst h1; subst h2
          exact ⟨Or.inl rfl, hd⟩
        · obtain ⟨hm, hc⟩ := ih.mp hmem
          exact ⟨Or.inr hm, hc⟩
      · rintro ⟨hmem | hmem, hcond⟩
        · obtain ⟨h1, h2⟩ := Prod.mk.injEq .. ▸ hmem
          subst h1; subst h2
          exact Or.inl rfl
        · exact Or.inr (ih.mpr ⟨hmem, hcond⟩)
    · rw [if_neg hd, ih]
      constructor
      · rintro ⟨hm, hc⟩
        exact ⟨List.mem_cons_of_mem _ hm, hc⟩
      · rintro ⟨hm, hc⟩
        rcases List.mem_cons.mp hm with heq | hm2
        · obtain ⟨h1, h2⟩ := Prod.mk.injEq .. ▸ heq
          subst h1
          exact absurd hc hd
        · exact ⟨hm2, hc⟩

theorem pageDiffB_eq_true (fs : FS) (pid : String) :
    pageDiffB fs pid = true ↔
      ∃ c i, fsGet fs (P.clone pid) = some (.text c) ∧
        fsGet fs (P.index pid) = some (.text i) ∧ c ≠ i := by
  unfold pageDiffB
  rcases hc : fsGet fs (P.clone pid) with _ | dc
  · simp
  · cases dc with
    | text c =>
      rcases hi : fsGet fs (P.index pid) with _ | di
      · simp
      · cases di with
        | text i => simp
        | jManifest m => simp
        | jMeta m => simp
        | jBad => simp
    | jManifest m => rcases hi : fsGet fs (P.index pid) with _ | di <;> simp
    | jMeta m => rcases hi : fsGet fs (P.index pid) with _ | di <;> simp
    | jBad => rcases hi : fsGet fs (P.index pid) with _ | di <;> simp

/-- Claim C4 (counterexample): the claim says `detect_changes_v2` compares
normalized documents, so files differing only in whitespace between tags
are reported as unchanged.  Here `fsWsOnly`'s two files for page `"3"`
differ only by one inter-tag space — their normalizations coincide — yet
`detect_changes_v2` reports the page. -/
theorem detect_reports_whitespace_only_difference :
    normalize_html (fun s => s) "<p>a</p> <p>b</p>" =
      normalize_html (fun s => s) "<p>a</p><p>b</p>" ∧
    detect_changes_v2 fsWsOnly = some [⟨"3", "T"⟩] := by
  decide

/-- Claim C4 (amended): `detect_changes_v2` performs no normalization.  For
a parsable manifest it reports exactly the entries whose working copy and
snapshot both exist as readable documents and whose raw contents differ
byte-for-byte — in particular two files differing only in inter-tag
whitespace are reported as changed.  (The normalized comparison with status
`"modified"` lives in `sync_status_v2` instead; see `sync_status_v2`.) -/
theorem detect_changes_v2_raw_comparison (fs : FS) (pages : List (String × String))
    (h : fsGet fs P.manifest = some (.jManifest pages)) :
    detect_changes_v2 fs = some (detectLoop fs pages) ∧
    ∀ pid title, (⟨pid, title⟩ : ChangeRec) ∈ detectLoop fs pages ↔
      ((pid, title) ∈ pages ∧ ∃ c i, fsGet fs (P.clone pid) = some (.text c) ∧
        fsGet fs (P.index pid) = some (.text i) ∧ c ≠ i) := by
  refine ⟨by simp [detect_changes_v2, h], fun pid title => ?_⟩
  rw [detectLoop_mem, pageDiffB_eq_true]

/-- Witness for C4's amended theorem: applied to `fsWsOnly`, whose
whitespace-only difference makes page `"3"` a reported member. -/
theorem detect_changes_v2_raw_comparison_witness :
    (⟨"3", "T"⟩ : ChangeRec) ∈ detectLoop fsWsOnly [("3", "T")] := by
  refine ((detect_changes_v2_raw_comparison fsWsOnly [("3", "T")] rfl).2 "3" "T").mpr ?_
  exact ⟨by decide, "<p>a</p><p>b</p>", "<p>a</p> <p>b</p>", rfl, rfl, by decide⟩

/-- Claim C5 (counterexample): the claim says `push_page_v2` returns false
when the post-push verification fetch fails.  In the code that path prints
"Push succeeded but verification failed" and returns `True` (leaving local
state untouched): here the PATCH succeeds and the verification GET returns
an error string, and the result is `(fsPush, true)`. -/
theorem push_verification_error_returns_true :
    push_page_v2 fsPush "5" false (fun s => s) (.pageJson "" "")
      (.errorStr ": timeout") tsB = (fsPush, true) := by
  decide

/-- Claim C5 (amended): with the working copy present and readable,
`push_page_v2` returns false and leaves the filesystem untouched when the
PATCH fails or when the verification response cannot be parsed; when the
verification fetch itself returns an error string it still leaves the
filesystem untouched but returns `true`. -/
theorem push_failure_behavior (fs : FS) (pageId : String)
    (extract : String → String) (ts s : String)
    (h : fsGet fs (P.index pageId) = some (.text s)) :
    (∀ (msg : String) (getResp : WPPageResp),
      push_page_v2 fs pageId false extract (.errorStr msg) getResp ts = (fs, false)) ∧
    (∀ (patchResp : WPPageResp) (msg : String),
      (∀ m, patchResp ≠ .errorStr m) →
      push_page_v2 fs pageId false extract patchResp (.errorStr msg) ts = (fs, true)) ∧
    (∀ (patchResp : WPPageResp),
      (∀ m, patchResp ≠ .errorStr m) →
      push_page_v2 fs pageId false extract patchResp .badJson ts = (fs, false)) := by
  refine ⟨?_, ?_, ?_⟩
  · intro msg gr
    unfold push_page_v2
    rw [h]
    rfl
  · intro pr msg hne
    cases pr with
    | errorStr m => exact absurd rfl (hne m)
    | pageJson t c => unfold push_page_v2; rw [h]; rfl
    | badJson => unfold push_page_v2; rw [h]; rfl
  · intro pr hne
    cases pr with
    | errorStr m => exact absurd rfl (hne m)
    | pageJson t c => unfold push_page_v2; rw [h]; rfl
    | badJson => unfold push_page_v2; rw [h]; rfl

/-- Witness for C5's amended theorem, on `fsPush` page `"5"`: a PATCH error
gives `(fsPush, false)`; a verification error after a successful PATCH
gives `(fsPush, true)`. -/
theorem push_failure_behavior_witness :
    push_page_v2 fsPush "5" false (fun s => s) (.errorStr "!") .badJson tsB =
      (fsPush, false) ∧
    push_page_v2 fsPush "5" false (fun s => s) (.pageJson "" "") (.errorStr "!") tsB =
      (fsPush, true) := by
  have hth := push_failure_behavior fsPush "5" (fun s => s) tsB "<p>x</p>" rfl
  exact ⟨hth.1 "!" .badJson, hth.2.1 (.pageJson "" "") "!" (fun m hm => by cases hm)⟩

/-- Claim C6 (counterexample): the claim says every operation that
overwrites `clone.html` — restore included — first archives the prior
snapshot.  `restore_from_clone` does not: on `fsArch`, whose current
snapshot content `"X"` appears in no archive file, restoring archive `tsA`
succeeds, replaces the snapshot, and leaves the archive directory exactly
as before, so content `"X"` is gone from history. -/
theorem restore_loses_unarchived_snapshot :
    (restore_from_clone fsArch "4" tsA tsB).2 = .restored ∧
    fsGet fsArch (P.clone "4") = some (.text "X") ∧
    fsGet (restore_from_clone fsArch "4" tsA tsB).1 (P.clone "4") =
      some (.text (cloneTemplate "T" tsA "clone" "Z")) ∧
    archEntries (restore_from_clone fsArch "4" tsA tsB).1 "4" =
      [(tsA, .text (cloneTemplate "T" tsA "clone" "Z"))] ∧
    ((archEntries (restore_from_clone fsArch "4" tsA tsB).1 "4").all
      (fun e => e.2 ≠ .text "X")) = true := by
  decide

/-- The filesystem written by a successful `_update_clone_with_timestamp`
over an existing snapshot `old`: the archive of `old` under its embedded
timestamp, the fresh timestamped history entry, and the refreshed current
snapshot. -/
def refreshedFS (fs : FS) (pid old c t op ts : String) : FS :=
  fsSet (fsSet (fsSet fs (P.archived pid (extractTimestamp old)) (.text old))
      (P.archived pid ts) (.text (cloneTemplate t ts op c)))
    (P.clone pid) (.text (cloneTemplate t ts op c))

/-- Claim C6 (amended): the clone and push paths (both going through
`_update_clone_with_timestamp`) do archive the prior snapshot under its
embedded timestamp (or `"unknown"`) before overwriting it — provided the
fresh timestamp differs from the archived one — but `restore_from_clone`
overwrites the current snapshot without archiving it: it never changes the
archive directory of any page (it only backs up the working copy, into the
page directory). -/
theorem snapshot_archive_policy :
    (∀ (fs : FS) (pid c t op ts old : String),
      fsGet fs (P.clone pid) = some (.text old) →
      extractTimestamp old ≠ ts →
      update_clone_with_timestamp fs pid c t op ts =
        some (refreshedFS fs pid old c t op ts, ts) ∧
      fsGet (refreshedFS fs pid old c t op ts)
        (P.archived pid (extractTimestamp old)) = some (.text old) ∧
      fsGet (refreshedFS fs pid old c t op ts) (P.clone pid) =
        some (.text (cloneTemplate t ts op c))) ∧
    (∀ (fs : FS) (pid ts bts i : String),
      archEntries (restore_from_clone fs pid ts bts).1 i = archEntries fs i) := by
  constructor
  · intro fs pid c t op ts old h hts
    refine ⟨?_, ?_, ?_⟩
    · unfold update_clone_with_timestamp
      rw [h]
      rfl
    · unfold refreshedFS
      rw [fsGet_fsSet_of_ne _ _ _ _ (by intro hc; cases hc)]
      rw [fsGet_fsSet_of_ne _ _ _ _ (by
        intro hEq
        injection hEq with h1 h2
        exact hts h2)]
      exact fsGet_fsSet_self _ _ _
    · exact fsGet_fsSet_self _ _ _
  · intro fs pid ts bts i
    rcases h : fsGet fs (P.archived pid ts) with _ | src
    · simp only [restore_from_clone, h]
    · rcases h2 : fsGet fs (P.index pid) with _ | cur
      · have hr : restore_from_clone fs pid ts bts =
            (fsSet (fsSet fs (P.index pid) src) (P.clone pid) src, .restored) := by
          simp only [restore_from_clone, h, h2]
        rw [hr]
        rw [archEntries_fsSet_eq _ (P.clone pid) _ i rfl,
            archEntries_fsSet_eq _ (P.index pid) _ i rfl]
      · have hr : restore_from_clone fs pid ts bts =
            (fsSet (fsSet (fsSet fs (P.backup pid bts) cur) (P.index pid) src)
              (P.clone pid) src, .restored) := by
          simp only [restore_from_clone, h, h2]
        rw [hr]
        rw [archEntries_fsSet_eq _ (P.clone pid) _ i rfl,
            archEntries_fsSet_eq _ (P.index pid) _ i rfl,
            archEntries_fsSet_eq _ (P.backup pid bts) _ i rfl]

/-- Witness for C6's amended theorem: refreshing item `7` of `fsEdited`
(cloned at `tsA`) at `tsB` archives the prior snapshot under `tsA`; and the
restore on `fsArch` leaves its archive directory unchanged. -/
theorem snapshot_archive_policy_witness :
    update_clone_with_timestamp fsEdited "7" "<p>c</p>" "T" "push" tsB =
      some (refreshedFS fsEdited "7" (cloneTemplate "T" tsA "clone" "<p>a</p>")
              "<p>c</p>" "T" "push" tsB, tsB) ∧
    fsGet (refreshedFS fsEdited "7" (cloneTemplate "T" tsA "clone" "<p>a</p>")
        "<p>c</p>" "T" "push" tsB)
      (P.archived "7" (extractTimestamp (cloneTemplate "T" tsA "clone" "<p>a</p>"))) =
      some (.text (cloneTemplate "T" tsA "clone" "<p>a</p>")) ∧
    archEntries (restore_from_clone fsArch "4" tsA tsB).1 "4" = archEntries fsArch "4" := by
  have hth := snapshot_archive_policy
  have h1 := hth.1 fsEdited "7" "<p>c</p>" "T" "push" tsB
    (cloneTemplate "T" tsA "clone" "<p>a</p>") rfl (by decide)
  exact ⟨h1.1, h1.2.1, hth.2 fsArch "4" tsA tsB "4"⟩

/-- Claim C8 (counterexample): the claim says `restore(id, T)` makes
`getHistory(id)` list a new entry for the just-replaced working copy.  The
backup is written to `index_backup_<ts>.html` in the page directory, which
the history scan (`clones/page_<id>/clone_*.html`) never sees: on `fsArch`
the restore succeeds, the backup of the working copy `"W"` exists, yet the
history listing is exactly what it was before. -/
theorem restore_backup_not_in_history :
    (restore_from_clone fsArch "4" tsA tsB).2 = .restored ∧
    fsGet (restore_from_clone fsArch "4" tsA tsB).1 (P.backup "4" tsB) =
      some (.text "W") ∧
    get_clone_history (restore_from_clone fsArch "4" tsA tsB).1 "4" =
      get_clone_history fsArch "4" := by
  decide

/-- Claim C8 (amended): for every archived timestamp `ts` of a page,
`restore_from_clone` succeeds, copies that archived snapshot over both the
working copy and the current snapshot (so the working copy equals snapshot
`ts` exactly), and backs up the prior working copy (when present) to
`index_backup_<now>.html` in the page directory; but `get_clone_history`
does not list that backup — its result is identical to before the
restore, for every page. -/
theorem restore_round_trip_behavior (fs : FS) (pid ts bts : String) (src : FData)
    (h : fsGet fs (P.archived pid ts) = some src) :
    (restore_from_clone fs pid ts bts).2 = .restored ∧
    fsGet (restore_from_clone fs pid ts bts).1 (P.index pid) = some src ∧
    fsGet (restore_from_clone fs pid ts bts).1 (P.clone pid) = some src ∧
    (∀ cur, fsGet fs (P.index pid) = some cur →
      fsGet (restore_from_clone fs pid ts bts).1 (P.backup pid bts) = some cur) ∧
    (∀ i, get_clone_history (restore_from_clone fs pid ts bts).1 i =
      get_clone_history fs i) := by
  rcases h2 : fsGet fs (P.index pid) with _ | cur0
  · have hr : restore_from_clone fs pid ts bts =
        (fsSet (fsSet fs (P.index pid) src) (P.clone pid) src, .restored) := by
      simp only [restore_from_clone, h, h2]
    rw [hr]
    refine ⟨rfl, ?_, ?_, ?_, ?_⟩
    · rw [fsGet_fsSet_of_ne _ _ _ _ (by intro hc; cases hc)]
      exact fsGet_fsSet_self _ _ _
    · exact fsGet_fsSet_self _ _ _
    · intro cur hcur
      exact Option.noConfusion hcur
    · intro i
      apply get_clone_history_congr
      rw [archEntries_fsSet_eq _ (P.clone pid) _ i rfl,
          archEntries_fsSet_eq _ (P.index pid) _ i rfl]
  · have hr : restore_from_clone fs pid ts bts =
        (fsSet (fsSet (fsSet fs (P.backup pid bts) cur0) (P.index pid) src)
          (P.clone pid) src, .restored) := by
      simp only [restore_from_clone, h, h2]
    rw [hr]
    refine ⟨rfl, ?_, ?_, ?_, ?_⟩
    · rw [fsGet_fsSet_of_ne _ _ _ _ (by intro hc; cases hc)]
      exact fsGet_fsSet_self _ _ _
    · exact fsGet_fsSet_self _ _ _
    · intro cur hcur
      injection hcur with hc
      subst hc
      rw [fsGet_fsSet_of_ne _ _ _ _ (by intro hc; cases hc),
          fsGet_fsSet_of_ne _ _ _ _ (by intro hc; cases hc)]
      exact fsGet_fsSet_self _ _ _
    · intro i
      apply get_clone_history_congr
      rw [archEntries_fsSet_eq _ (P.clone pid) _ i rfl,
          archEntries_fsSet_eq _ (P.index pid) _ i rfl,
          archEntries_fsSet_eq _ (P.backup pid bts) _ i rfl]

/-- Witness for C8's amended theorem, on `fsArch`: after restoring archive
`tsA` of page `"4"`, the working copy equals that archived snapshot, the
old working copy `"W"` is backed up, and the history listing is unchanged. -/
theorem restore_round_trip_behavior_witness :
    fsGet (restore_from_clone fsArch "4" tsA tsB).1 (P.index "4") =
      some (.text (cloneTemplate "T" tsA "clone" "Z")) ∧
    fsGet (restore_from_clone fsArch "4" tsA tsB).1 (P.backup "4" tsB) =
      some (.text "W") ∧
    get_clone_history (restore_from_clone fsArch "4" tsA tsB).1 "4" =
      get_clone_history fsArch "4" := by
  have hth := restore_round_trip_behavior fsArch "4" tsA tsB
    (.text (cloneTemplate "T" tsA "clone" "Z")) rfl
  exact ⟨hth.2.1, hth.2.2.2.1 (.text "W") rfl, hth.2.2.2.2 "4"⟩

/-- Claim C9 (counterexample): the claim says `sync_status_v2` is
four-valued.  A manifest file whose bytes fail `json.loads` makes the outer
exception handler return a fifth status, `"error"`. -/
theorem sync_status_error_value :
    (sync_status_v2 (fun s => s) [(P.manifest, FData.jBad)]).status = "error" ∧
    "error" ≠ "no_manifest" ∧ "error" ≠ "synced" ∧
    "error" ≠ "local_only_pages" ∧ "error" ≠ "needs_sync" := by
  decide

/-- Claim C9 (amended): `sync_status_v2` is total and five-valued —
`no_manifest`, `synced`, `local_only_pages`, `needs_sync`, or `"error"`
(exceptions such as a malformed manifest are caught and reported, never
raised).  Without a manifest file it returns `no_manifest`; for a parsed
manifest whose scan completes, it returns the scanned `changes` and
`local_only` lists and classifies: `synced` iff both are empty,
`local_only_pages` iff there are local-only pages and no change records,
`needs_sync` iff there is at least one change record (modified or
`no_clone`). -/
theorem sync_status_five_valued (bs4 : String → String) (fs : FS) :
    ((sync_status_v2 bs4 fs).status = "no_manifest" ∨
     (sync_status_v2 bs4 fs).status = "synced" ∨
     (sync_status_v2 bs4 fs).status = "local_only_pages" ∨
     (sync_status_v2 bs4 fs).status = "needs_sync" ∨
     (sync_status_v2 bs4 fs).status = "error") ∧
    (fsGet fs P.manifest = none → (sync_status_v2 bs4 fs).status = "no_manifest") ∧
    (∀ pages cs ls, fsGet fs P.manifest = some (.jManifest pages) →
      statusLoop bs4 fs pages = some (cs, ls) →
      (sync_status_v2 bs4 fs).changes = cs ∧
      (sync_status_v2 bs4 fs).localOnly = ls ∧
      ((sync_status_v2 bs4 fs).status = "synced" ↔ cs = [] ∧ ls = []) ∧
      ((sync_status_v2 bs4 fs).status = "local_only_pages" ↔ cs = [] ∧ ls ≠ []) ∧
      ((sync_status_v2 bs4 fs).status = "needs_sync" ↔ cs ≠ [])) := by
  rcases hm : fsGet fs P.manifest with _ | d
  · have hs : sync_status_v2 bs4 fs =
        { status := "no_manifest", changes := [], localOnly := [] } := by
      simp only [sync_status_v2, hm]
    rw [hs]
    exact ⟨Or.inl rfl, fun _ => rfl, fun pages cs ls hc _ => Option.noConfusion hc⟩
  · cases d with
    | jManifest pages0 =>
      rcases hl : statusLoop bs4 fs pages0 with _ | pr
      · have hs : sync_status_v2 bs4 fs =
            { status := "error", changes := [], localOnly := [] } := by
          simp only [sync_status_v2, hm, hl]
        rw [hs]
        refine ⟨Or.inr (Or.inr (Or.inr (Or.inr rfl))),
          fun hn => Option.noConfusion hn, fun pages cs ls hc hS => ?_⟩
        injection hc with hc2
        injection hc2 with hc3
        subst hc3
        rw [hl] at hS
        exact Option.noConfusion hS
      · obtain ⟨cs0, ls0⟩ := pr
        have hs : sync_status_v2 bs4 fs =
            { status := if !ls0.isEmpty && cs0.isEmpty then "local_only_pages"
                        else if !cs0.isEmpty || !ls0.isEmpty then "needs_sync"
                        else "synced",
              changes := cs0, localOnly := ls0 } := by
          simp only [sync_status_v2, hm, hl]
        rw [hs]
        refine ⟨?_, fun hn => Option.noConfusion hn, fun pages cs ls hc hS => ?_⟩
        · rcases cs0 with _ | ⟨c, cs1⟩ <;> rcases ls0 with _ | ⟨l, ls1⟩ <;> simp
        · injection hc with hc2
          injection hc2 with hc3
          subst hc3
          rw [hl] at hS
          injection hS with hS2
          obtain ⟨h1, h2⟩ := Prod.mk.injEq .. ▸ hS2
          subst h1; subst h2
          refine ⟨rfl, rfl, ?_, ?_, ?_⟩ <;>
            rcases cs0 with _ | ⟨c, cs1⟩ <;> rcases ls0 with _ | ⟨l, ls1⟩ <;> simp
    | text s =>
      have hs : sync_status_v2 bs4 fs =
          { status := "error", changes := [], localOnly := [] } := by
        simp only [sync_status_v2, hm]
      rw [hs]
      exact ⟨Or.inr (Or.inr (Or.inr (Or.inr rfl))), fun hn => Option.noConfusion hn,
        fun pages cs ls hc _ => FData.noConfusion (Option.some.inj hc)⟩
    | jMeta m =>
      have hs : sync_status_v2 bs4 fs =
          { status := "error", changes := [], localOnly := [] } := by
        simp only [sync_status_v2, hm]
      rw [hs]
      exact ⟨Or.inr (Or.inr (Or.inr (Or.inr rfl))), fun hn => Option.noConfusion hn,
        fun pages cs ls hc _ => FData.noConfusion (Option.some.inj hc)⟩
    | jBad =>
      have hs : sync_status_v2 bs4 fs =
          { status := "error", changes := [], localOnly := [] } := by
        simp only [sync_status_v2, hm]
      rw [hs]
      exact ⟨Or.inr (Or.inr (Or.inr (Or.inr rfl))), fun hn => Option.noConfusion hn,
        fun pages cs ls hc _ => FData.noConfusion (Option.some.inj hc)⟩

/-- Witness for C9's amended theorem: on `fsInSync` (one page, identical
files) the classification yields `synced`. -/
theorem sync_status_five_valued_witness :
    (sync_status_v2 (fun s => s) fsInSync).status = "synced" := by
  have hth := (sync_status_five_valued (fun s => s) fsInSync).2.2
    [("1", "T")] [] [] rfl (by decide)
  exact hth.2.2.1.mpr ⟨rfl, rfl⟩

end SyncV2
